import Mathlib

/-!
Shallow embedding of the `@pidchashyi/try-catch` library (`src/index.ts`).

Modelling choices:
* A thrown/rejected JavaScript value is a `JsValue`; `Error` instances are
  the constructor `JsValue.error` carrying a `JsError` (its `message`).
* A computation that may throw is an `Except JsValue _`; a settled promise
  is likewise an `Except JsValue _` (re-awaiting a promise replays the same
  settlement, so one settled value per promise is faithful).
* Runtime casts such as `data as unknown as S` are no-ops in JavaScript, so
  executors use a single value type `α` for both the raw and selected data.
* Side effects (awaiting the operation, `console.error` logging, `onError`
  and `onFinally` invocations, retry sleeps) are counted in a `Trace`
  record returned next to the outcome.  Executor-level outcome is
  `Except JsValue (Result α JsError)`: `.ok r` means the executor returned
  the result `r`, `.error v` means an exception `v` escaped the executor.
* The mutable global configuration is passed explicitly: the setter is a
  state transition, the executors take the current global config as an
  argument.
* Each executor is split, exactly as in the source, into the option merge
  (`mergeOptions` / `mergeBaseOptions`) followed by the execution proper
  (`tryCatchSyncRun`, `tryCatchRun`, `tryCatchAllSafeRun`) on the merged
  record.
* The optional `performance` wall-clock measurement is not modelled (no
  claim concerns it); callbacks' return values are `Unit`, and `onFinally`
  is modelled by its presence, its invocations being counted in the trace.
-/

namespace TC

/-- A JavaScript `Error` instance, identified by its message. -/
structure JsError where
  message : String
deriving Repr, DecidableEq

/-- A JavaScript value as it can be thrown / used as a promise rejection
reason: either an `Error` instance or a non-`Error` primitive. -/
inductive JsValue where
  | error (e : JsError)
  | str (s : String)
  | num (n : Int)
  | boolean (b : Bool)
  | null
  | undef
deriving Repr, DecidableEq

/-- JavaScript `String(v)` conversion for the modelled values. -/
def jsString : JsValue → String
  | .error e => "Error: " ++ e.message
  | .str s => s
  | .num n => toString n
  | .boolean b => if b then "true" else "false"
  | .null => "null"
  | .undef => "undefined"

/-- `toError` (src/index.ts:136): `error instanceof Error ? error :
new Error(String(error))`. -/
def toError (error : JsValue) : JsError :=
  match error with
  | .error e => e
  | v => ⟨jsString v⟩

/-- `getErrorMessage` (src/index.ts:142): `toError(error).message`. -/
def getErrorMessage (error : JsValue) : String :=
  (toError error).message

/-- The `Result<T, E>` discriminated union (`Success` / `Failure`),
as a sum type keyed on the `status` tag. -/
inductive Result (α ε : Type) where
  | success (data : α)
  | failure (error : ε)
deriving Repr, DecidableEq

/-- `RetryOptions` (src/index.ts:52): retry count and optional delay.
`retries` is a JavaScript number, so it is modelled as an integer. -/
structure RetryOptions where
  retries : Int
  delayMs : Option Nat := none
deriving Repr, DecidableEq

/-- The local options record accepted by `tryCatchSync` / `tryCatch`
(`BaseTryCatchOptions` + `retry` + `select`); a field that the caller did
not pass is `none`.  `onError` and `select` are caller-supplied callbacks
that may themselves throw; `onFinally` is modelled by its presence. -/
structure TryCatchOptions (α : Type) where
  logError : Option Bool := none
  onError : Option (JsError → Except JsValue Unit) := none
  onFinally : Option Unit := none
  retry : Option RetryOptions := none
  select : Option (α → Except JsValue α) := none

/-- The global configuration record (`Partial<TryCatchOptions>`,
src/index.ts:174); it has no `select` key. -/
structure GlobalConfig where
  logError : Option Bool := none
  onError : Option (JsError → Except JsValue Unit) := none
  onFinally : Option Unit := none
  retry : Option RetryOptions := none

/-- `setGlobalTryCatchConfig` (src/index.ts:192): replaces the stored
global configuration wholesale. -/
def setGlobalTryCatchConfig (config : GlobalConfig) (_current : GlobalConfig) :
    GlobalConfig :=
  config

/-- `getGlobalTryCatchConfig` (src/index.ts:208): reads the store. -/
def getGlobalTryCatchConfig (current : GlobalConfig) : GlobalConfig :=
  current

/-- The spread merge `{ ...globalConfig, ...(options || {}) }`: a key
present in the local options overrides the global one; `select` exists
only locally. -/
def mergeOptions (globalConfig : GlobalConfig) (options : TryCatchOptions α) :
    TryCatchOptions α where
  logError := options.logError.orElse fun _ => globalConfig.logError
  onError := options.onError.orElse fun _ => globalConfig.onError
  onFinally := options.onFinally.orElse fun _ => globalConfig.onFinally
  retry := options.retry.orElse fun _ => globalConfig.retry
  select := options.select

/-- Counts of the observable side effects of one executor invocation. -/
structure Trace where
  awaits : Nat := 0
  logs : Nat := 0
  onErrorCalls : Nat := 0
  onFinallyCalls : Nat := 0
  sleeps : Nat := 0
deriving Repr, DecidableEq

/-- `finally { onFinally?.(); }`: count an invocation when the callback
is present. -/
def runFinally (onFin : Option Unit) (tr : Trace) : Trace :=
  match onFin with
  | some _ => { tr with onFinallyCalls := tr.onFinallyCalls + 1 }
  | none => tr

/-- `tryCatchSync` after the option merge (src/index.ts:241-275).
`fn`'s one invocation is the given `Except`; the `select` call sits inside
the `try` block, so its exception reaches the `catch` block; an exception
from `onError` (raised inside the `catch` block) escapes the executor
after `finally` has run. -/
def tryCatchSyncRun (fn : Except JsValue α) (m : TryCatchOptions α) :
    Except JsValue (Result α JsError) × Trace :=
  -- try block: run fn, then select (both inside the try)
  let tryBlock : Except JsValue (Result α JsError) :=
    match fn with
    | .ok data =>
      match m.select with
      | some sel =>
        match sel data with
        | .ok selectedData => .ok (.success selectedData)
        | .error v => .error v
      | none => .ok (.success data)
    | .error v => .error v
  let body : Except JsValue (Result α JsError) × Trace :=
    match tryBlock with
    | .ok r => (.ok r, {})
    | .error v =>
      -- catch block
      let processedError := toError v
      let tr : Trace := if m.logError.getD false then { logs := 1 } else {}
      match m.onError with
      | some handler =>
        match handler processedError with
        | .ok _ =>
          (.ok (.failure processedError), { tr with onErrorCalls := tr.onErrorCalls + 1 })
        | .error w =>
          (.error w, { tr with onErrorCalls := tr.onErrorCalls + 1 })
      | none => (.ok (.failure processedError), tr)
  (body.1, runFinally m.onFinally body.2)

/-- `tryCatchSync` (src/index.ts:221): merge, then run. -/
def tryCatchSync (fn : Except JsValue α) (options : TryCatchOptions α)
    (globalConfig : GlobalConfig) : Except JsValue (Result α JsError) × Trace :=
  tryCatchSyncRun fn (mergeOptions (getGlobalTryCatchConfig globalConfig) options)

/-- One attempt of the async inner `try` body (src/index.ts:310-311):
await the promise, then apply `select` to the data; either step may
throw. -/
def attemptResult (promise : Except JsValue α)
    (sel : Option (α → Except JsValue α)) : Except JsValue α :=
  match promise with
  | .ok data =>
    match sel with
    | some s => s data
    | none => .ok data
  | .error v => .error v

/-- The `while (attempt < maxRetries)` loop of `tryCatch`
(src/index.ts:308-347), with the inner try/catch as loop body.  The loop
variable `attempt` is replaced by `remaining = (maxRetries - attempt)`
clamped to a natural number, so the guard `attempt < maxRetries` is
`remaining ≠ 0` and the test `attempt >= maxRetries` after `attempt++` is
`remaining - 1 = 0`.  When the guard fails, control falls through to
`throw new Error("Unexpected retry failure")` (src/index.ts:350), an
exception escaping the loop.  Awaiting the promise replays the same
settlement each attempt; each await is counted.  An exception raised by
`onError` inside the inner catch block escapes the loop (towards the
outer catch of `tryCatch`). -/
def tryCatchLoop (promise : Except JsValue α) (sel : Option (α → Except JsValue α))
    (logErr : Bool) (onErr : Option (JsError → Except JsValue Unit))
    (delayMs : Option Nat) (remaining : Nat) (tr : Trace) :
    Except JsValue (Result α JsError) × Trace :=
  match remaining with
  | 0 => (.error (JsValue.error ⟨"Unexpected retry failure"⟩), tr)
  | rest + 1 =>
    -- inner try: await the promise, then apply select
    let tr1 := { tr with awaits := tr.awaits + 1 }
    match attemptResult promise sel with
    | .ok selectedData => (.ok (.success selectedData), tr1)
    | .error v =>
      -- inner catch block: attempt++
      let processedError := toError v
      let tr2 := if logErr then { tr1 with logs := tr1.logs + 1 } else tr1
      match
        (match onErr with
          | some handler =>
            (handler processedError, { tr2 with onErrorCalls := tr2.onErrorCalls + 1 })
          | none => ((.ok () : Except JsValue Unit), tr2)) with
      | (.error w, tr3) => (.error w, tr3)
      | (.ok _, tr3) =>
        if rest = 0 then
          -- attempt >= maxRetries: return the Failure
          (.ok (.failure processedError), tr3)
        else
          -- if (retry?.delayMs) await sleep(retry.delayMs): 0 is falsy
          let tr4 :=
            match delayMs with
            | some d => if d ≠ 0 then { tr3 with sleeps := tr3.sleeps + 1 } else tr3
            | none => tr3
          tryCatchLoop promise sel logErr onErr delayMs rest tr4

/-- `maxRetries = retry?.retries ?? 1` (src/index.ts:303). -/
def maxRetries (m : TryCatchOptions α) : Int :=
  match m.retry with
  | some r => r.retries
  | none => 1

/-- `tryCatch` after the option merge (src/index.ts:303-365).  Runs the
retry loop (iterations clamped to zero when `maxRetries` is not positive,
exactly as the `while` guard does), wrapped in the outer try/catch: any
exception that escapes the loop — the `"Unexpected retry failure"` throw
or an exception from `onError` — is converted into a Failure via
`toError` (src/index.ts:351-356).  `onFinally` runs last. -/
def tryCatchRun (promise : Except JsValue α) (m : TryCatchOptions α) :
    Except JsValue (Result α JsError) × Trace :=
  let loopOut :=
    tryCatchLoop promise m.select (m.logError.getD false) m.onError
      (m.retry.bind RetryOptions.delayMs) (maxRetries m).toNat {}
  let body : Except JsValue (Result α JsError) × Trace :=
    match loopOut with
    | (.ok r, tr) => (.ok r, tr)
    | (.error v, tr) => (.ok (.failure (toError v)), tr)
  (body.1, runFinally m.onFinally body.2)

/-- `tryCatch` (src/index.ts:284): merge, then run. -/
def tryCatch (promise : Except JsValue α) (options : TryCatchOptions α)
    (globalConfig : GlobalConfig) : Except JsValue (Result α JsError) × Trace :=
  tryCatchRun promise (mergeOptions (getGlobalTryCatchConfig globalConfig) options)

/-- The local options record accepted by the batch executors
(`BaseTryCatchOptions`): no `retry`, no `select`. -/
structure BaseOptions where
  logError : Option Bool := none
  onError : Option (JsError → Except JsValue Unit) := none
  onFinally : Option Unit := none

/-- The spread merge `{ ...globalConfig, ...(options || {}) }` for the
batch executors; the merged `retry` key is never read by them. -/
def mergeBaseOptions (globalConfig : GlobalConfig) (options : BaseOptions) :
    BaseOptions where
  logError := options.logError.orElse fun _ => globalConfig.logError
  onError := options.onError.orElse fun _ => globalConfig.onError
  onFinally := options.onFinally.orElse fun _ => globalConfig.onFinally

/-- `PartialResults<T, E>` (src/index.ts:96). -/
structure PartialResults (α : Type) where
  successes : List α := []
  errors : List JsError := []
  successIndices : List Nat := []
  errorIndices : List Nat := []
deriving Repr, DecidableEq

/-- The `results.forEach((result, index) => ...)` loop of
`tryCatchAllSafe` (src/index.ts:457-468).  `Promise.allSettled` delivers
the settlements in input order, so the settled list is the input list
itself.  Fulfilled entries push onto `successes`/`successIndices`, rejected
ones normalize the reason, push onto `errors`/`errorIndices`, then log and
invoke `onError`; an exception from `onError` aborts the iteration and
escapes (towards the outer catch). -/
def collectLoop (logErr : Bool) (onErr : Option (JsError → Except JsValue Unit))
    (results : List (Except JsValue α)) (index : Nat) (acc : PartialResults α)
    (tr : Trace) : Except JsValue (PartialResults α) × Trace :=
  match results with
  | [] => (.ok acc, tr)
  | r :: rest =>
    match r with
    | .ok v =>
      collectLoop logErr onErr rest (index + 1)
        { acc with
          successes := acc.successes ++ [v]
          successIndices := acc.successIndices ++ [index] } tr
    | .error reason =>
      let err := toError reason
      let acc2 :=
        { acc with
          errors := acc.errors ++ [err]
          errorIndices := acc.errorIndices ++ [index] }
      let tr2 := if logErr then { tr with logs := tr.logs + 1 } else tr
      match onErr with
      | some handler =>
        let tr3 := { tr2 with onErrorCalls := tr2.onErrorCalls + 1 }
        match handler err with
        | .ok _ => collectLoop logErr onErr rest (index + 1) acc2 tr3
        | .error w => (.error w, tr3)
      | none => collectLoop logErr onErr rest (index + 1) acc2 tr2

/-- `tryCatchAllSafe` after the option merge (src/index.ts:446-518).
Settles every promise, collects the partial results in input order, and
applies the aggregate policy: zero successes give a top-level Failure
with message `All N promises failed` (`N = partialResults.errors.length`),
otherwise a Success carrying the `PartialResults`.  An exception escaping
the collection (only possible from `onError`) is handled by the outer
catch: log, invoke `onError`, return the normalized Failure.  `onFinally`
runs last. -/
def tryCatchAllSafeRun (promises : List (Except JsValue α)) (m : BaseOptions) :
    Except JsValue (Result (PartialResults α) JsError) × Trace :=
  let logErr := m.logError.getD false
  let body : Except JsValue (Result (PartialResults α) JsError) × Trace :=
    match collectLoop logErr m.onError promises 0 {} {} with
    | (.ok partialResults, tr) =>
      if partialResults.successes.length = 0 then
        (.ok (.failure
          ⟨"All " ++ toString partialResults.errors.length ++ " promises failed"⟩), tr)
      else
        (.ok (.success partialResults), tr)
    | (.error v, tr) =>
      -- outer catch (src/index.ts:499-515)
      let processedError := toError v
      let tr2 := if logErr then { tr with logs := tr.logs + 1 } else tr
      match m.onError with
      | some handler =>
        let tr3 := { tr2 with onErrorCalls := tr2.onErrorCalls + 1 }
        match handler processedError with
        | .ok _ => (.ok (.failure processedError), tr3)
        | .error w => (.error w, tr3)
      | none => (.ok (.failure processedError), tr2)
  (body.1, runFinally m.onFinally body.2)

/-- `tryCatchAllSafe` (src/index.ts:432): merge, then run. -/
def tryCatchAllSafe (promises : List (Except JsValue α)) (options : BaseOptions)
    (globalConfig : GlobalConfig) :
    Except JsValue (Result (PartialResults α) JsError) × Trace :=
  tryCatchAllSafeRun promises
    (mergeBaseOptions (getGlobalTryCatchConfig globalConfig) options)

/-- Closed form of the collection loop: the partial results contributed
by a suffix of the settled list whose first element has original index
`i`. -/
def collectPure : List (Except JsValue α) → Nat → PartialResults α
  | [], _ => {}
  | .ok v :: rest, i =>
    let p := collectPure rest (i + 1)
    { p with successes := v :: p.successes, successIndices := i :: p.successIndices }
  | .error w :: rest, i =>
    let p := collectPure rest (i + 1)
    { p with errors := toError w :: p.errors, errorIndices := i :: p.errorIndices }

/-- Pointwise list concatenation of two partial-result records. -/
def pappend (a b : PartialResults α) : PartialResults α where
  successes := a.successes ++ b.successes
  errors := a.errors ++ b.errors
  successIndices := a.successIndices ++ b.successIndices
  errorIndices := a.errorIndices ++ b.errorIndices

/-! ### Characterization lemmas for the retry loop

The promise's settlement, `select` and `onError` are all deterministic, so
each invocation of the loop follows one uniform path, fully described by
one of the next four lemmas. -/

/-- An attempt that succeeds (promise fulfilled, `select` does not throw)
makes the loop return the Success on its first iteration. -/
lemma tryCatchLoop_success (promise : Except JsValue α)
    (sel : Option (α → Except JsValue α)) (logErr : Bool)
    (onErr : Option (JsError → Except JsValue Unit)) (delayMs : Option Nat)
    (rest : Nat) (tr : Trace) (d : α)
    (hatt : attemptResult promise sel = .ok d) :
    tryCatchLoop promise sel logErr onErr delayMs (rest + 1) tr
      = (.ok (.success d), { tr with awaits := tr.awaits + 1 }) := by
  rw [tryCatchLoop, hatt]

/-- When every attempt fails with the same exception `v` and `onError`
does not throw on its normalization, `n + 1` remaining iterations run the
attempt `n + 1` times and return the normalized Failure. -/
lemma tryCatchLoop_allFail (promise : Except JsValue α)
    (sel : Option (α → Except JsValue α)) (logErr : Bool)
    (onErr : Option (JsError → Except JsValue Unit)) (delayMs : Option Nat)
    (v : JsValue)
    (hatt : attemptResult promise sel = .error v)
    (hben : ∀ h, onErr = some h → h (toError v) = .ok ()) :
    ∀ (n : Nat) (tr : Trace),
      tryCatchLoop promise sel logErr onErr delayMs (n + 1) tr
        = (.ok (.failure (toError v)),
            { awaits := tr.awaits + (n + 1)
              logs := tr.logs + (if logErr then n + 1 else 0)
              onErrorCalls :=
                tr.onErrorCalls + (match onErr with | some _ => n + 1 | none => 0)
              onFinallyCalls := tr.onFinallyCalls
              sleeps := tr.sleeps +
                (match delayMs with
                  | some ms => if ms ≠ 0 then n else 0
                  | none => 0) }) := by
  intro n
  induction n with
  | zero =>
    intro tr
    rw [tryCatchLoop, hatt]
    cases onErr with
    | some handler =>
      dsimp only
      rw [hben handler rfl]
      rcases delayMs with _ | ms <;> by_cases hl : logErr <;>
        simp [hl, Trace.mk.injEq]
    | none =>
      dsimp only
      rcases delayMs with _ | ms <;> by_cases hl : logErr <;>
        simp [hl, Trace.mk.injEq]
  | succ k ih =>
    intro tr
    rw [tryCatchLoop, hatt]
    cases onErr with
    | some handler =>
      dsimp only
      rw [hben handler rfl]
      dsimp only
      rw [if_neg (by omega : ¬(k + 1 = 0))]
      rw [ih]
      rcases delayMs with _ | ms
      · by_cases hl : logErr <;> simp [hl, Trace.mk.injEq] <;> omega
      · by_cases hms : ms = 0 <;> by_cases hl : logErr <;>
          simp [hl, hms, Trace.mk.injEq] <;> omega
    | none =>
      dsimp only
      rw [if_neg (by omega : ¬(k + 1 = 0))]
      rw [ih]
      rcases delayMs with _ | ms
      · by_cases hl : logErr <;> simp [hl, Trace.mk.injEq] <;> omega
      · by_cases hms : ms = 0 <;> by_cases hl : logErr <;>
          simp [hl, hms, Trace.mk.injEq] <;> omega

/-- When the attempt fails and `onError` itself throws `w`, the loop is
abandoned on the first iteration with `w` escaping. -/
lemma tryCatchLoop_handlerThrows (promise : Except JsValue α)
    (sel : Option (α → Except JsValue α)) (logErr : Bool)
    (handler : JsError → Except JsValue Unit) (delayMs : Option Nat)
    (v w : JsValue) (rest : Nat) (tr : Trace)
    (hatt : attemptResult promise sel = .error v)
    (hthrow : handler (toError v) = .error w) :
    tryCatchLoop promise sel logErr (some handler) delayMs (rest + 1) tr
      = (.error w,
          { awaits := tr.awaits + 1
            logs := tr.logs + (if logErr then 1 else 0)
            onErrorCalls := tr.onErrorCalls + 1
            onFinallyCalls := tr.onFinallyCalls
            sleeps := tr.sleeps }) := by
  rw [tryCatchLoop, hatt]
  simp only
  rw [hthrow]
  by_cases hl : logErr <;> simp [hl]

/-- With zero remaining iterations the loop body never runs and the
`"Unexpected retry failure"` exception escapes. -/
lemma tryCatchLoop_zero (promise : Except JsValue α)
    (sel : Option (α → Except JsValue α)) (logErr : Bool)
    (onErr : Option (JsError → Except JsValue Unit)) (delayMs : Option Nat)
    (tr : Trace) :
    tryCatchLoop promise sel logErr onErr delayMs 0 tr
      = (.error (JsValue.error ⟨"Unexpected retry failure"⟩), tr) := rfl

/-! ### `runFinally` projections -/

@[simp] lemma runFinally_awaits (o : Option Unit) (tr : Trace) :
    (runFinally o tr).awaits = tr.awaits := by cases o <;> rfl

@[simp] lemma runFinally_logs (o : Option Unit) (tr : Trace) :
    (runFinally o tr).logs = tr.logs := by cases o <;> rfl

@[simp] lemma runFinally_onErrorCalls (o : Option Unit) (tr : Trace) :
    (runFinally o tr).onErrorCalls = tr.onErrorCalls := by cases o <;> rfl

@[simp] lemma runFinally_sleeps (o : Option Unit) (tr : Trace) :
    (runFinally o tr).sleeps = tr.sleeps := by cases o <;> rfl

lemma runFinally_some_onFinallyCalls (u : Unit) (tr : Trace) :
    (runFinally (some u) tr).onFinallyCalls = tr.onFinallyCalls + 1 := rfl

/-! ### Characterization lemmas for `tryCatchSyncRun` -/

/-- The operation throws and `onError` is absent or benign: the sync
executor returns the normalized Failure. -/
lemma tryCatchSyncRun_opFails (v : JsValue) (m : TryCatchOptions α)
    (hben : ∀ h, m.onError = some h → h (toError v) = .ok ()) :
    (tryCatchSyncRun (.error v) m).1 = .ok (.failure (toError v)) := by
  rw [tryCatchSyncRun]
  dsimp only
  cases ho : m.onError with
  | none => rfl
  | some h =>
    dsimp only
    rw [hben h ho]

/-- The operation succeeds but `select` throws, and `onError` is absent
or benign: the sync executor returns the Failure normalizing `select`'s
exception. -/
lemma tryCatchSyncRun_selectThrows (data : α) (sel : α → Except JsValue α)
    (w : JsValue) (m : TryCatchOptions α)
    (hsel : m.select = some sel) (hw : sel data = .error w)
    (hben : ∀ h, m.onError = some h → h (toError w) = .ok ()) :
    (tryCatchSyncRun (.ok data) m).1 = .ok (.failure (toError w)) := by
  rw [tryCatchSyncRun]
  dsimp only
  rw [hsel]
  dsimp only
  rw [hw]
  dsimp only
  cases ho : m.onError with
  | none => rfl
  | some h =>
    dsimp only
    rw [hben h ho]

/-- Whatever path the sync executor takes, a supplied `onFinally` runs
exactly once. -/
lemma tryCatchSyncRun_onFinally_once (fn : Except JsValue α)
    (m : TryCatchOptions α) (u : Unit) (hf : m.onFinally = some u) :
    (tryCatchSyncRun fn m).2.onFinallyCalls = 1 := by
  cases fn <;>
    (rw [tryCatchSyncRun, hf]
     dsimp only
     repeat' split
     all_goals simp [runFinally])

/-! ### Characterization lemmas for `tryCatchRun` -/

/-- Every attempt fails with `v` and `onError` is absent or benign: the
async executor returns the normalized Failure after exhausting the whole
`n + 1`-attempt budget, sleeping `n` times between attempts when a
non-zero `delayMs` is set. -/
lemma tryCatchRun_attemptFails (promise : Except JsValue α)
    (m : TryCatchOptions α) (v : JsValue) (n : Nat)
    (hatt : attemptResult promise m.select = .error v)
    (hben : ∀ h, m.onError = some h → h (toError v) = .ok ())
    (hk : (maxRetries m).toNat = n + 1) :
    (tryCatchRun promise m).1 = .ok (.failure (toError v)) ∧
    (tryCatchRun promise m).2.awaits = n + 1 := by
  rw [tryCatchRun]
  dsimp only
  rw [hk, tryCatchLoop_allFail _ _ _ _ _ v hatt hben n {}]
  dsimp only
  constructor
  · rfl
  · simp

/-- A non-positive retry budget: the loop body never runs and the
`"Unexpected retry failure"` exception is converted by the outer catch. -/
lemma tryCatchRun_zeroBudget (promise : Except JsValue α)
    (m : TryCatchOptions α) (hk : (maxRetries m).toNat = 0) :
    (tryCatchRun promise m).1 = .ok (.failure ⟨"Unexpected retry failure"⟩) ∧
    (tryCatchRun promise m).2.awaits = 0 := by
  rw [tryCatchRun]
  dsimp only
  rw [hk, tryCatchLoop_zero]
  exact ⟨rfl, by simp⟩

/-- The attempt fails and `onError` throws `w`: the outer catch converts
`w` into the returned Failure. -/
lemma tryCatchRun_handlerThrows (promise : Except JsValue α)
    (m : TryCatchOptions α) (h : JsError → Except JsValue Unit)
    (v w : JsValue) (n : Nat)
    (hatt : attemptResult promise m.select = .error v)
    (ho : m.onError = some h) (hthrow : h (toError v) = .error w)
    (hk : (maxRetries m).toNat = n + 1) :
    (tryCatchRun promise m).1 = .ok (.failure (toError w)) := by
  rw [tryCatchRun]
  dsimp only
  rw [hk, ho, tryCatchLoop_handlerThrows _ _ _ _ _ v w n {} hatt hthrow]

/-- Whatever path the async executor takes, a supplied `onFinally` runs
exactly once. -/
lemma tryCatchRun_onFinally_once (promise : Except JsValue α)
    (m : TryCatchOptions α) (u : Unit) (hf : m.onFinally = some u) :
    (tryCatchRun promise m).2.onFinallyCalls = 1 := by
  rw [tryCatchRun, hf]
  dsimp only
  cases hk : (maxRetries m).toNat with
  | zero =>
    rw [tryCatchLoop_zero]
    rfl
  | succ n =>
    cases hatt : attemptResult promise m.select with
    | ok d =>
      rw [tryCatchLoop_success _ _ _ _ _ n {} d hatt]
      rfl
    | error v =>
      cases ho : m.onError with
      | none =>
        rw [tryCatchLoop_allFail _ _ _ _ _ v hatt (fun h hh => by cases hh) n {}]
        rfl
      | some h =>
        cases hres : h (toError v) with
        | ok u2 =>
          rw [tryCatchLoop_allFail _ _ _ _ _ v hatt
            (fun h2 hh => by cases hh; exact hres) n {}]
          rfl
        | error w =>
          rw [tryCatchLoop_handlerThrows _ _ _ _ _ v w n {} hatt hres]
          rfl


/-! ### Characterization lemmas for the collection loop -/

/-- With an absent or benign `onError`, the collection loop never aborts:
it returns the accumulator extended with the closed-form collection of the
remaining settled results. -/
lemma collectLoop_benign (logErr : Bool)
    (onErr : Option (JsError → Except JsValue Unit))
    (hben : ∀ h, onErr = some h → ∀ e, h e = .ok ()) :
    ∀ (results : List (Except JsValue α)) (i : Nat) (acc : PartialResults α)
      (tr : Trace),
      ∃ tr2, collectLoop logErr onErr results i acc tr
        = (.ok (pappend acc (collectPure results i)), tr2) := by
  intro results
  induction results with
  | nil =>
    intro i acc tr
    refine ⟨tr, ?_⟩
    rw [collectLoop.eq_def]
    simp [pappend, collectPure]
  | cons r rest ih =>
    intro i acc tr
    cases r with
    | ok v =>
      obtain ⟨tr2, h2⟩ := ih (i + 1)
        { acc with
          successes := acc.successes ++ [v]
          successIndices := acc.successIndices ++ [i] } tr
      refine ⟨tr2, ?_⟩
      rw [collectLoop.eq_def]
      dsimp only
      refine h2.trans ?_
      have hP : pappend
          { acc with
            successes := acc.successes ++ [v]
            successIndices := acc.successIndices ++ [i] }
          (collectPure rest (i + 1))
          = pappend acc (collectPure (.ok v :: rest) i) := by
        simp [pappend, collectPure, List.append_assoc]
      rw [hP]
    | error w =>
      cases ho : onErr with
      | none =>
        obtain ⟨tr2, h2⟩ := ih (i + 1)
          { acc with
            errors := acc.errors ++ [toError w]
            errorIndices := acc.errorIndices ++ [i] }
          (if logErr then { tr with logs := tr.logs + 1 } else tr)
        rw [ho] at h2
        refine ⟨tr2, ?_⟩
        rw [collectLoop.eq_def]
        dsimp only
        refine h2.trans ?_
        have hP : pappend
            { acc with
              errors := acc.errors ++ [toError w]
              errorIndices := acc.errorIndices ++ [i] }
            (collectPure rest (i + 1))
            = pappend acc (collectPure (.error w :: rest) i) := by
          simp [pappend, collectPure, List.append_assoc]
        rw [hP]
      | some h =>
        obtain ⟨tr2, h2⟩ := ih (i + 1)
          { acc with
            errors := acc.errors ++ [toError w]
            errorIndices := acc.errorIndices ++ [i] }
          { (if logErr then { tr with logs := tr.logs + 1 } else tr) with
            onErrorCalls :=
              (if logErr then { tr with logs := tr.logs + 1 } else tr).onErrorCalls + 1 }
        rw [ho] at h2
        refine ⟨tr2, ?_⟩
        rw [collectLoop.eq_def]
        dsimp only
        rw [hben h ho (toError w)]
        refine h2.trans ?_
        have hP : pappend
            { acc with
              errors := acc.errors ++ [toError w]
              errorIndices := acc.errorIndices ++ [i] }
            (collectPure rest (i + 1))
            = pappend acc (collectPure (.error w :: rest) i) := by
          simp [pappend, collectPure, List.append_assoc]
        rw [hP]

/-- The index lists are exactly as long as their payload lists. -/
lemma collectPure_lengths (results : List (Except JsValue α)) :
    ∀ i, (collectPure results i).successIndices.length
        = (collectPure results i).successes.length ∧
      (collectPure results i).errorIndices.length
        = (collectPure results i).errors.length := by
  induction results with
  | nil => intro i; exact ⟨rfl, rfl⟩
  | cons r rest ih =>
    intro i
    cases r with
    | ok v => simpa [collectPure] using ih (i + 1)
    | error w => simpa [collectPure] using ih (i + 1)

/-- Together, the two index lists are a permutation of the original index
interval: they partition it exactly. -/
lemma collectPure_perm (results : List (Except JsValue α)) :
    ∀ i, ((collectPure results i).successIndices
        ++ (collectPure results i).errorIndices).Perm
      (List.range' i results.length) := by
  induction results with
  | nil => intro i; simp [collectPure]
  | cons r rest ih =>
    intro i
    cases r with
    | ok v =>
      simp only [collectPure, List.length_cons, List.range'_succ, List.cons_append]
      exact (ih (i + 1)).cons i
    | error w =>
      simp only [collectPure, List.length_cons, List.range'_succ]
      exact List.perm_middle.trans ((ih (i + 1)).cons i)

/-- Every collected index is at least the starting index. -/
lemma collectPure_indices_lb (results : List (Except JsValue α)) :
    ∀ i j, (j ∈ (collectPure results i).successIndices ∨
        j ∈ (collectPure results i).errorIndices) → i ≤ j := by
  induction results with
  | nil => intro i j hj; rcases hj with h | h <;> cases h
  | cons r rest ih =>
    intro i j hj
    cases r with
    | ok v =>
      rcases hj with h | h
      · rcases List.mem_cons.mp (by simpa [collectPure] using h) with h2 | h2
        · omega
        · have := ih (i + 1) j (Or.inl h2); omega
      · have := ih (i + 1) j (Or.inr (by simpa [collectPure] using h)); omega
    | error w =>
      rcases hj with h | h
      · have := ih (i + 1) j (Or.inl (by simpa [collectPure] using h)); omega
      · rcases List.mem_cons.mp (by simpa [collectPure] using h) with h2 | h2
        · omega
        · have := ih (i + 1) j (Or.inr h2); omega

/-- Both index lists are strictly increasing: entries appear in original
input order. -/
lemma collectPure_sorted (results : List (Except JsValue α)) :
    ∀ i, (collectPure results i).successIndices.Pairwise (· < ·) ∧
      (collectPure results i).errorIndices.Pairwise (· < ·) := by
  induction results with
  | nil => intro i; constructor <;> simp [collectPure]
  | cons r rest ih =>
    intro i
    cases r with
    | ok v =>
      refine ⟨?_, by simpa [collectPure] using (ih (i + 1)).2⟩
      simp only [collectPure, List.pairwise_cons]
      refine ⟨fun j hj => ?_, (ih (i + 1)).1⟩
      have := collectPure_indices_lb rest (i + 1) j (Or.inl hj)
      omega
    | error w =>
      refine ⟨by simpa [collectPure] using (ih (i + 1)).1, ?_⟩
      simp only [collectPure, List.pairwise_cons]
      refine ⟨fun j hj => ?_, (ih (i + 1)).2⟩
      have := collectPure_indices_lb rest (i + 1) j (Or.inr hj)
      omega

/-- When every settled result is a rejection, nothing is collected as a
success and the error list covers the whole batch. -/
lemma collectPure_allFail (results : List (Except JsValue α))
    (hall : ∀ p ∈ results, ∀ v, p ≠ .ok v) :
    ∀ i, (collectPure results i).successes = [] ∧
      (collectPure results i).errors.length = results.length := by
  induction results with
  | nil => intro i; exact ⟨rfl, rfl⟩
  | cons r rest ih =>
    intro i
    cases r with
    | ok v => exact absurd rfl (hall (.ok v) (List.mem_cons_self _ _) v)
    | error w =>
      have ih2 := ih (fun p hp v => hall p (List.mem_cons_of_mem _ hp) v) (i + 1)
      simp [collectPure, ih2.1, ih2.2]

/-- When at least one settled result is a fulfillment, the collected
success list is nonempty. -/
lemma collectPure_someOk (results : List (Except JsValue α))
    (hok : ∃ p ∈ results, ∃ v, p = .ok v) :
    ∀ i, (collectPure results i).successes ≠ [] := by
  induction results with
  | nil =>
    obtain ⟨p, hp, _⟩ := hok
    exact absurd hp (List.not_mem_nil p)
  | cons r rest ih =>
    intro i
    cases r with
    | ok v => simp [collectPure]
    | error w =>
      obtain ⟨p, hp, v, hv⟩ := hok
      rcases List.mem_cons.mp hp with h2 | h2
      · rw [h2] at hv; cases hv
      · have := ih ⟨p, h2, v, hv⟩ (i + 1)
        simp [collectPure, this]

/-- Prepending an empty accumulator is the identity. -/
lemma pappend_empty_left (b : PartialResults α) : pappend {} b = b := rfl

/-! ### Claim theorems -/

/-- C7: Error normalization is idempotent — normalizing an
already-normalized error returns it unchanged, so
`toError(toError(x)) == toError(x)`; and `getErrorMessage(x)` equals
`toError(x).message` for every `x`. -/
theorem claim_C7_normalization_idempotent (x : JsValue) :
    toError (JsValue.error (toError x)) = toError x ∧
    getErrorMessage x = (toError x).message :=
  ⟨rfl, rfl⟩

/-- C1 counterexample: the claim says a `select` exception in
`tryCatchSync` and an `onError` exception in `tryCatch` propagate out of
the executor; at these concrete inputs both executors instead return a
Failure outcome (`.ok (.failure _)`, not an escaping `.error _`): the
sync `select` call sits inside the `try` block, and the async `onError`
exception is caught by the outer catch. -/
theorem claim_C1_counterexample :
    (tryCatchSync (α := Int) (.ok 1)
        { select := some fun _ => .error (.str "sel") } {}).1
      = .ok (.failure ⟨"sel"⟩) ∧
    (tryCatch (α := Int) (.error (.str "x"))
        { onError := some fun _ => .error (.str "cb") } {}).1
      = .ok (.failure ⟨"cb"⟩) :=
  ⟨rfl, rfl⟩

/-- C1 amended: when the `select` transform raises in `tryCatchSync`
(and `onError` does not itself throw), the exception is caught by the
executor's catch block and converted into a Failure carrying the
normalized exception; when `onError` raises in `tryCatch` (with at least
one attempt), the exception is caught by the executor's outer catch and
likewise converted into a Failure carrying the normalized exception —
neither propagates out of the executor call. -/
theorem claim_C1_amended_callback_exceptions_become_failures
    (g : GlobalConfig) (opts : TryCatchOptions α) (data : α)
    (sel : α → Except JsValue α) (v w : JsValue)
    (h : JsError → Except JsValue Unit) (n : Nat) :
    ((mergeOptions g opts).select = some sel → sel data = .error w →
      (∀ h2, (mergeOptions g opts).onError = some h2 → h2 (toError w) = .ok ()) →
      (tryCatchSync (.ok data) opts g).1 = .ok (.failure (toError w))) ∧
    ((mergeOptions g opts).onError = some h → h (toError v) = .error w →
      (maxRetries (mergeOptions g opts)).toNat = n + 1 →
      (tryCatch (.error v) opts g).1 = .ok (.failure (toError w))) := by
  constructor
  · intro hsel hw hben
    exact tryCatchSyncRun_selectThrows data sel w _ hsel hw hben
  · intro ho hthrow hk
    exact tryCatchRun_handlerThrows (.error v) _ h v w n rfl ho hthrow hk

/-- C1 amended, witness: a throwing `select` in `tryCatchSync` and a
throwing `onError` in `tryCatch` at concrete inputs both yield the
normalized Failure. -/
theorem claim_C1_amended_witness :
    (tryCatchSync (α := Int) (.ok 2)
        { select := some fun _ => .error (.str "boomSel") } {}).1
      = .ok (.failure ⟨"boomSel"⟩) ∧
    (tryCatch (α := Int) (.error (.str "y"))
        { onError := some fun _ => .error (.str "boomCb") } {}).1
      = .ok (.failure ⟨"boomCb"⟩) :=
  ⟨(claim_C1_amended_callback_exceptions_become_failures {} _ 2
      (fun _ => .error (.str "boomSel")) (.str "y") (.str "boomSel")
      (fun _ => .error (.str "boomCb")) 0).1 rfl rfl (fun h2 hh => by cases hh),
   (claim_C1_amended_callback_exceptions_become_failures {} _ 2
      (fun _ => .error (.str "boomSel")) (.str "y") (.str "boomCb")
      (fun _ => .error (.str "boomCb")) 0).2 rfl rfl rfl⟩

/-- C2: for an always-failing operation, `tryCatch` with
`retry = {retries: 3, delayMs: 10}` awaits the attempt exactly 3 times
and returns the normalized Failure; with no retry option (default
`retries = 1`), exactly 1 await. -/
theorem claim_C2_retry_exhaustion (g : GlobalConfig) (v : JsValue)
    (honerr : g.onError = none) (hretry : g.retry = none) :
    ((tryCatch (α := α) (.error v) { retry := some ⟨3, some 10⟩ } g).1
        = .ok (.failure (toError v)) ∧
      (tryCatch (α := α) (.error v) { retry := some ⟨3, some 10⟩ } g).2.awaits = 3) ∧
    ((tryCatch (α := α) (.error v) {} g).1 = .ok (.failure (toError v)) ∧
      (tryCatch (α := α) (.error v) {} g).2.awaits = 1) := by
  have hben : ∀ (opts : TryCatchOptions α) h,
      opts.onError = none →
      (mergeOptions g opts).onError = some h → h (toError v) = .ok () := by
    intro opts h hnone hh
    have hh2 : g.onError = some h := by
      have he : (mergeOptions g opts).onError = opts.onError.orElse fun _ => g.onError :=
        rfl
      rw [he, hnone] at hh
      exact hh
    rw [honerr] at hh2
    cases hh2
  constructor
  · exact tryCatchRun_attemptFails (.error v) _ v 2 rfl
      (hben { retry := some ⟨3, some 10⟩ } · rfl) rfl
  · have hk : (maxRetries (mergeOptions g ({} : TryCatchOptions α))).toNat = 0 + 1 := by
      have h1 : (mergeOptions g ({} : TryCatchOptions α)).retry = g.retry := rfl
      simp [maxRetries, h1, hretry]
    exact tryCatchRun_attemptFails (.error v) _ v 0 rfl (hben {} · rfl) hk

/-- C2 witness: the concrete always-failing operation, with and without
the retry option, under the empty global configuration. -/
theorem claim_C2_witness :
    ((tryCatch (α := Int) (.error (.str "boom")) { retry := some ⟨3, some 10⟩ } {}).1
        = .ok (.failure ⟨"boom"⟩) ∧
      (tryCatch (α := Int) (.error (.str "boom"))
        { retry := some ⟨3, some 10⟩ } {}).2.awaits = 3) ∧
    ((tryCatch (α := Int) (.error (.str "boom")) {} {}).1 = .ok (.failure ⟨"boom"⟩) ∧
      (tryCatch (α := Int) (.error (.str "boom")) {} {}).2.awaits = 1) :=
  claim_C2_retry_exhaustion {} (.str "boom") rfl rfl

/-- C5: effective options are the shallow merge of the global
configuration with the local options, local keys winning: after
`setGlobalTryCatchConfig({logError: true})`, a call with
`{logError: false}` uses `logError = false` (and logs nothing), while a
call with `{}` uses `logError = true` (and logs the failure). -/
theorem claim_C5_merge_precedence (α : Type) (g0 : GlobalConfig) (v : JsValue) :
    (mergeOptions (α := α) (setGlobalTryCatchConfig { logError := some true } g0)
        { logError := some false }).logError = some false ∧
    (mergeOptions (α := α) (setGlobalTryCatchConfig { logError := some true } g0)
        {}).logError = some true ∧
    (tryCatch (α := α) (.error v) { logError := some false }
        (setGlobalTryCatchConfig { logError := some true } g0)).2.logs = 0 ∧
    (tryCatch (α := α) (.error v) {}
        (setGlobalTryCatchConfig { logError := some true } g0)).2.logs = 1 :=
  ⟨rfl, rfl, rfl, rfl⟩

/-- C6: an operation that throws/rejects (with benign callbacks and at
least one attempt) is caught at the executor boundary: both executors
return a Failure whose error is the normalized thrown value — an
`Error` passes through unchanged, any other value is wrapped into an
`Error` with its string conversion as message. -/
theorem claim_C6_failure_normalized (g : GlobalConfig) (opts : TryCatchOptions α)
    (v : JsValue)
    (hben : ∀ h, (mergeOptions g opts).onError = some h → h (toError v) = .ok ())
    (hret : 1 ≤ maxRetries (mergeOptions g opts)) :
    (tryCatchSync (.error v) opts g).1 = .ok (.failure (toError v)) ∧
    (tryCatch (.error v) opts g).1 = .ok (.failure (toError v)) := by
  constructor
  · exact tryCatchSyncRun_opFails v _ hben
  · obtain ⟨n, hn⟩ : ∃ n, (maxRetries (mergeOptions g opts)).toNat = n + 1 :=
      ⟨(maxRetries (mergeOptions g opts)).toNat - 1, by omega⟩
    exact (tryCatchRun_attemptFails (.error v) _ v n rfl hben hn).1

/-- C6 witness: a non-`Error` thrown value is wrapped into an `Error`
carrying its string conversion, in both executors. -/
theorem claim_C6_witness :
    (tryCatchSync (α := Int) (.error (.str "raw")) {} {}).1
      = .ok (.failure ⟨"raw"⟩) ∧
    (tryCatch (α := Int) (.error (.str "raw")) {} {}).1
      = .ok (.failure ⟨"raw"⟩) :=
  claim_C6_failure_normalized {} {} (.str "raw") (fun h hh => by cases hh)
    (by decide)

/-- C8: whenever a `tryCatchSync` or `tryCatch` invocation has an
`onFinally` callback in its effective options, that callback is invoked
exactly once, on every exit path (operation success, operation failure
including exhausted retries, throwing `select`, throwing `onError`,
non-positive retry budget). -/
theorem claim_C8_onFinally_exactly_once (g : GlobalConfig)
    (opts : TryCatchOptions α) (fn promise : Except JsValue α)
    (hfin : (mergeOptions g opts).onFinally.isSome) :
    (tryCatchSync fn opts g).2.onFinallyCalls = 1 ∧
    (tryCatch promise opts g).2.onFinallyCalls = 1 := by
  obtain ⟨u, hu⟩ := Option.isSome_iff_exists.mp hfin
  exact ⟨tryCatchSyncRun_onFinally_once fn _ u hu,
    tryCatchRun_onFinally_once promise _ u hu⟩

/-- C8 witness: `onFinally` runs exactly once for a succeeding sync
operation and a failing async operation. -/
theorem claim_C8_witness :
    (tryCatchSync (α := Int) (.ok 1) { onFinally := some () } {}).2.onFinallyCalls = 1 ∧
    (tryCatch (α := Int) (.error (.str "x")) { onFinally := some () } {}).2.onFinallyCalls = 1 :=
  claim_C8_onFinally_exactly_once {} { onFinally := some () } (.ok 1)
    (.error (.str "x")) rfl

/-- C9: with an effective retry option whose `retries` is zero or
negative, the retry loop body never runs: the operation is never
awaited and `tryCatch` returns a Failure with message
`"Unexpected retry failure"`, with `onFinally` (when supplied) still
invoked once. -/
theorem claim_C9_nonpositive_retries (g : GlobalConfig)
    (opts : TryCatchOptions α) (promise : Except JsValue α) (r : RetryOptions)
    (hr : (mergeOptions g opts).retry = some r) (hneg : r.retries ≤ 0) :
    (tryCatch promise opts g).1 = .ok (.failure ⟨"Unexpected retry failure"⟩) ∧
    (tryCatch promise opts g).2.awaits = 0 ∧
    ((mergeOptions g opts).onFinally.isSome →
      (tryCatch promise opts g).2.onFinallyCalls = 1) := by
  have hk : (maxRetries (mergeOptions g opts)).toNat = 0 := by
    simp only [maxRetries, hr]
    omega
  refine ⟨(tryCatchRun_zeroBudget promise _ hk).1,
    (tryCatchRun_zeroBudget promise _ hk).2, ?_⟩
  intro hfin
  obtain ⟨u, hu⟩ := Option.isSome_iff_exists.mp hfin
  exact tryCatchRun_onFinally_once promise _ u hu

/-- C9 witness: `retries = 0` on a fulfilled promise that is never
awaited. -/
theorem claim_C9_witness :
    (tryCatch (α := Int) (.ok 7)
        { onFinally := some (), retry := some ⟨0, none⟩ } {}).1
      = .ok (.failure ⟨"Unexpected retry failure"⟩) ∧
    (tryCatch (α := Int) (.ok 7)
        { onFinally := some (), retry := some ⟨0, none⟩ } {}).2.awaits = 0 ∧
    ((mergeOptions (α := Int) {}
        { onFinally := some (), retry := some ⟨0, none⟩ }).onFinally.isSome →
      (tryCatch (α := Int) (.ok 7)
        { onFinally := some (), retry := some ⟨0, none⟩ } {}).2.onFinallyCalls = 1) :=
  claim_C9_nonpositive_retries {} { onFinally := some (), retry := some ⟨0, none⟩ }
    (.ok 7) ⟨0, none⟩ rfl (by decide)

/-- C10: in `tryCatch`, when the awaited attempt succeeds but `select`
raises, the exception is caught by the attempt-level handler and treated
like a failed attempt: it consumes the retry budget — the promise is
re-awaited on every one of the `n + 1` budgeted attempts — and once the
budget is exhausted the executor returns a Failure carrying the
normalized `select` exception. -/
theorem claim_C10_select_throw_consumes_budget (g : GlobalConfig)
    (opts : TryCatchOptions α) (data : α) (sel : α → Except JsValue α)
    (w : JsValue) (n : Nat)
    (hsel : (mergeOptions g opts).select = some sel)
    (hw : sel data = .error w)
    (hben : ∀ h, (mergeOptions g opts).onError = some h → h (toError w) = .ok ())
    (hk : (maxRetries (mergeOptions g opts)).toNat = n + 1) :
    (tryCatch (.ok data) opts g).1 = .ok (.failure (toError w)) ∧
    (tryCatch (.ok data) opts g).2.awaits = n + 1 := by
  have hatt : attemptResult (.ok data) (mergeOptions g opts).select = .error w := by
    simp [attemptResult, hsel, hw]
  exact tryCatchRun_attemptFails (.ok data) _ w n hatt hben hk

/-- C10 witness: fulfilled promise, always-throwing `select`,
`retries = 2`: two awaits, then the normalized select exception as the
Failure. -/
theorem claim_C10_witness :
    (tryCatch (α := Int) (.ok 5)
        { retry := some ⟨2, none⟩, select := some fun _ => .error (.str "selA") } {}).1
      = .ok (.failure ⟨"selA"⟩) ∧
    (tryCatch (α := Int) (.ok 5)
        { retry := some ⟨2, none⟩, select := some fun _ => .error (.str "selA") } {}).2.awaits
      = 1 + 1 :=
  claim_C10_select_throw_consumes_budget {}
    { retry := some ⟨2, none⟩, select := some fun _ => .error (.str "selA") }
    5 (fun _ => .error (.str "selA")) (.str "selA") 1 rfl rfl
    (fun h hh => by cases hh) rfl


/-- C3: with zero successes, `tryCatchAllSafe` returns a top-level
Failure whose message states the batch size (`"All N promises failed"`);
with at least one success it returns a top-level Success carrying the
partial results, however many operations failed. -/
theorem claim_C3_aggregate_policy (g : GlobalConfig) (bopts : BaseOptions)
    (promises : List (Except JsValue α))
    (hben : ∀ h, (mergeBaseOptions g bopts).onError = some h → ∀ e, h e = .ok ()) :
    ((∀ p ∈ promises, ∀ v, p ≠ .ok v) →
      (tryCatchAllSafe promises bopts g).1
        = .ok (.failure ⟨"All " ++ toString promises.length ++ " promises failed"⟩)) ∧
    ((∃ p ∈ promises, ∃ v, p = .ok v) →
      ∃ pr, (tryCatchAllSafe promises bopts g).1 = .ok (.success pr)) := by
  obtain ⟨tr2, hcol⟩ := collectLoop_benign
    ((mergeBaseOptions g bopts).logError.getD false)
    (mergeBaseOptions g bopts).onError hben promises 0 {} {}
  constructor
  · intro hall
    have hfail := collectPure_allFail promises hall 0
    show (tryCatchAllSafeRun promises (mergeBaseOptions g bopts)).1 = _
    rw [tryCatchAllSafeRun]
    dsimp only
    rw [hcol]
    dsimp only
    rw [pappend_empty_left, hfail.2]
    rw [if_pos (by rw [hfail.1]; rfl)]
  · intro hok
    have hne := collectPure_someOk promises hok 0
    refine ⟨collectPure promises 0, ?_⟩
    show (tryCatchAllSafeRun promises (mergeBaseOptions g bopts)).1 = _
    rw [tryCatchAllSafeRun]
    dsimp only
    rw [hcol]
    dsimp only
    rw [pappend_empty_left]
    rw [if_neg (fun h0 => hne (List.length_eq_zero.mp h0))]

/-- C3 witness: two rejections aggregate to the
`"All 2 promises failed"` Failure; a batch with a success yields a
top-level Success. -/
theorem claim_C3_witness :
    (tryCatchAllSafe (α := Int) [.error (.str "a"), .error (.str "b")] {} {}).1
      = .ok (.failure ⟨"All 2 promises failed"⟩) ∧
    (∃ pr, (tryCatchAllSafe (α := Int) [.ok 1, .error (.str "x"), .ok 3] {} {}).1
      = .ok (.success pr)) := by
  constructor
  · exact (claim_C3_aggregate_policy {} {} _ (fun h hh => by cases hh)).1
      (by
        intro p hp v hpe
        subst hpe
        rcases List.mem_cons.mp hp with h1 | h1
        · cases h1
        · rcases List.mem_cons.mp h1 with h2 | h2
          · cases h2
          · cases h2)
  · exact (claim_C3_aggregate_policy {} {} _ (fun h hh => by cases hh)).2
      ⟨.ok 1, by simp, 1, rfl⟩

/-- C4: with at least one success, the PartialResults built by
`tryCatchAllSafe` lists successes and errors in original input-index
order: the index lists are strictly increasing, exactly as long as their
payload lists, and together a permutation of `[0, N)`. -/
theorem claim_C4_partial_results_invariants (g : GlobalConfig)
    (bopts : BaseOptions) (promises : List (Except JsValue α))
    (hben : ∀ h, (mergeBaseOptions g bopts).onError = some h → ∀ e, h e = .ok ())
    (hok : ∃ p ∈ promises, ∃ v, p = .ok v) :
    ∃ pr, (tryCatchAllSafe promises bopts g).1 = .ok (.success pr) ∧
      pr.successIndices.length = pr.successes.length ∧
      pr.errorIndices.length = pr.errors.length ∧
      (pr.successIndices ++ pr.errorIndices).Perm (List.range promises.length) ∧
      pr.successIndices.Pairwise (· < ·) ∧
      pr.errorIndices.Pairwise (· < ·) := by
  obtain ⟨tr2, hcol⟩ := collectLoop_benign
    ((mergeBaseOptions g bopts).logError.getD false)
    (mergeBaseOptions g bopts).onError hben promises 0 {} {}
  have hne := collectPure_someOk promises hok 0
  refine ⟨collectPure promises 0, ?_, (collectPure_lengths promises 0).1,
    (collectPure_lengths promises 0).2, ?_, (collectPure_sorted promises 0).1,
    (collectPure_sorted promises 0).2⟩
  · show (tryCatchAllSafeRun promises (mergeBaseOptions g bopts)).1 = _
    rw [tryCatchAllSafeRun]
    dsimp only
    rw [hcol]
    dsimp only
    rw [pappend_empty_left]
    rw [if_neg (fun h0 => hne (List.length_eq_zero.mp h0))]
  · rw [List.range_eq_range']
    exact collectPure_perm promises 0

/-- C4 witness: the spec's example batch, with its exact partial
results, and the invariants at that instance. -/
theorem claim_C4_witness :
    (tryCatchAllSafe (α := Int) [.ok 1, .error (.str "x"), .ok 3] {} {}).1
      = .ok (.success ⟨[1, 3], [⟨"x"⟩], [0, 2], [1]⟩) ∧
    (∃ pr, (tryCatchAllSafe (α := Int) [.ok 1, .error (.str "x"), .ok 3] {} {}).1
        = .ok (.success pr) ∧
      pr.successIndices.length = pr.successes.length ∧
      pr.errorIndices.length = pr.errors.length ∧
      (pr.successIndices ++ pr.errorIndices).Perm (List.range 3) ∧
      pr.successIndices.Pairwise (· < ·) ∧
      pr.errorIndices.Pairwise (· < ·)) :=
  ⟨rfl, claim_C4_partial_results_invariants {} {} _ (fun h hh => by cases hh)
    ⟨.ok 1, by simp, 1, rfl⟩⟩

end TC
